import Mathlib

/-!
Verification of the mesh-consolidation pipeline of
src/src/mesh_operations.cpp (geometric_shapes).

The C++ source is shallowly embedded: `double` coordinates are modelled
as exact rationals (`ℚ`), so exact component-wise floating-point
equality becomes equality of rationals; machine loops become folds over
lists; `NULL` returns become `Option.none`.  The normal-computation
members of `Mesh` (computeTriangleNormals / computeVertexNormals) are
not part of the provided source and are modelled from the spec, over
the reals.
-/

namespace MeshOps

/-- A 3-D point, the embedding of three consecutive doubles (x, y, z). -/
abbrev Point : Type := ℚ × ℚ × ℚ

/-- Embedding of `detail::LocalVertexType`: a position plus the index it
was assigned during welding (src/src/mesh_operations.cpp lines 70-82). -/
structure LocalVertex where
  pos : Point
  index : ℕ
deriving DecidableEq, Repr

/-- Embedding of the comparator `detail::ltLocalVertexValue`
(src/src/mesh_operations.cpp lines 85-101): lexicographic strict order
on (x, y, z), translated branch by branch. -/
def ltLocalVertexValue (p1 p2 : Point) : Bool :=
  if p1.1 < p2.1 then true
  else if p1.1 > p2.1 then false
  else if p1.2.1 < p2.2.1 then true
  else if p1.2.1 > p2.2.1 then false
  else if p1.2.2 < p2.2.2 then true
  else false

/-- The `std::set` equivalence induced by the comparator: neither element is
strictly below the other.  `find` locates an element equivalent in this
sense. -/
def setEquiv (p1 p2 : Point) : Bool :=
  !ltLocalVertexValue p1 p2 && !ltLocalVertexValue p2 p1

/-- Over exact values the comparator equivalence of the welding set is
exactly component-wise equality. -/
theorem setEquiv_iff_eq (p q : Point) : setEquiv p q = true ↔ p = q := by
  obtain ⟨px, py, pz⟩ := p
  obtain ⟨qx, qy, qz⟩ := q
  simp only [setEquiv, ltLocalVertexValue, gt_iff_lt, Bool.and_eq_true,
    Bool.not_eq_true', Prod.mk.injEq]
  constructor
  · rintro ⟨h1, h2⟩
    rcases lt_trichotomy px qx with hx | hx | hx
    · simp [hx] at h1
    · subst hx
      rcases lt_trichotomy py qy with hy | hy | hy
      · simp [lt_irrefl, hy] at h1
      · subst hy
        rcases lt_trichotomy pz qz with hz | hz | hz
        · simp [lt_irrefl, hz] at h1
        · exact ⟨rfl, rfl, hz⟩
        · simp [lt_irrefl, hz] at h2
      · simp [lt_irrefl, hy] at h2
    · simp [hx] at h2
  · rintro ⟨hx, hy, hz⟩
    subst hx; subst hy; subst hz
    simp [lt_irrefl]

/-- State of the welding loop: the set of already-seen vertices (kept
here in insertion order; the C++ `std::set` stores them in comparator
order, but the subsequent sort by assigned index makes the storage
order irrelevant, see `sortByIndex_recordsFrom`), and the triangle
index list built so far. -/
structure WeldState where
  verts : List LocalVertex
  tris : List ℕ
deriving DecidableEq, Repr

/-- One iteration of the welding body for a single point
(src/src/mesh_operations.cpp lines 149-158, repeated three times per
triangle): look the point up in the set; on a hit reuse its index, on a
miss assign index = current distinct-vertex count (`vertices.size()`)
and insert; either way append the index to the triangle list. -/
def weldStep (s : WeldState) (p : Point) : WeldState :=
  match s.verts.find? (fun r => setEquiv r.pos p) with
  | some r => ⟨s.verts, s.tris ++ [r.index]⟩
  | none => ⟨s.verts ++ [⟨p, s.verts.length⟩], s.tris ++ [s.verts.length]⟩

/-- The body of iteration `i` of the main loop
(src/src/mesh_operations.cpp lines 145-182): welds the three points
`source[3 i]`, `source[3 i + 1]`, `source[3 i + 2]`. -/
def weldTriple (source : List Point) (s : WeldState) (i : ℕ) : WeldState :=
  weldStep
    (weldStep
      (weldStep s (source.getD (3 * i) (0, 0, 0)))
      (source.getD (3 * i + 1) (0, 0, 0)))
    (source.getD (3 * i + 2) (0, 0, 0))

/-- The welding loop `for i in [0, n)` of
src/src/mesh_operations.cpp lines 145-182, starting from the empty set
and empty triangle list. -/
def weldLoop (source : List Point) (n : ℕ) : WeldState :=
  (List.range n).foldl (weldTriple source) ⟨[], []⟩

/-- Insertion of a vertex record into a list sorted by assigned index:
one step of the embedding of `std::sort(..., ltLocalVertexIndex())`
(src/src/mesh_operations.cpp lines 104-110 and 187). -/
def insertByIndex (r : LocalVertex) : List LocalVertex → List LocalVertex
  | [] => [r]
  | a :: as => if r.index ≤ a.index then r :: a :: as else a :: insertByIndex r as

/-- Sorting the vertex records by assigned index
(src/src/mesh_operations.cpp lines 185-187). -/
def sortByIndex (l : List LocalVertex) : List LocalVertex :=
  l.foldr insertByIndex []

/-- The indexed-triangle-mesh data produced by the pipeline: the
positions array and the flat triangle-index array of the C++ `Mesh`
(normals are computed from these, see `computeNormals`). -/
structure RawMesh where
  vertices : List Point
  triangles : List ℕ
deriving DecidableEq, Repr

/-- Count `Mesh::vertex_count`: number of stored positions. -/
def RawMesh.vertexCount (m : RawMesh) : ℕ := m.vertices.length

/-- Count `Mesh::triangle_count`: `nt = triangles.size() / 3`
(src/src/mesh_operations.cpp line 190). -/
def RawMesh.triangleCount (m : RawMesh) : ℕ := m.triangles.length / 3

/-- Copying the welded data into the mesh structure
(src/src/mesh_operations.cpp lines 184-201): sort the vertex records by
assigned index, emit their positions in that order, copy the triangle
index list verbatim. -/
def finalizeState (s : WeldState) : RawMesh :=
  ⟨(sortByIndex s.verts).map (fun r => r.pos), s.tris⟩

/-- Severity of a diagnostic routed to the logging collaborator. -/
inductive Severity where
  | warning
  | error
deriving DecidableEq, Repr

/-- Embedding of the raw-triple entry point
`createMeshFromVertices(const EigenSTL::vector_Vector3d &source)`
(src/src/mesh_operations.cpp lines 133-206), paired with the list of
diagnostics it emits: fewer than 3 points returns no mesh; a count not
divisible by 3 logs at error severity (`logError`, line 139) and
proceeds; the loop welds `n = size / 3` triples and the result is
copied into a mesh. -/
def createMeshFromVerticesLogged (source : List Point) :
    List Severity × Option RawMesh :=
  if source.length < 3 then ([], none)
  else
    ((if source.length % 3 ≠ 0 then [Severity.error] else []),
     some (finalizeState (weldLoop source (source.length / 3))))

/-- The raw-triple entry point's returned mesh (diagnostics dropped). -/
def createMeshFromVerticesRaw (source : List Point) : Option RawMesh :=
  (createMeshFromVerticesLogged source).2

/-- Embedding of the pre-indexed entry point
`createMeshFromVertices(vertices, triangles)`
(src/src/mesh_operations.cpp lines 115-131): positions and indices are
copied verbatim, no welding. -/
def createMeshFromVerticesIndexed (vertices : List Point)
    (triangles : List ℕ) : RawMesh :=
  ⟨vertices, triangles⟩

/-- Spec-side accumulator: append a point to the list of distinct
points only if it has not been seen before (exact component-wise
equality). -/
def addFirstOcc (acc : List Point) (p : Point) : List Point :=
  if p ∈ acc then acc else acc ++ [p]

/-- Spec-side description of the welded vertex table: the distinct
input points in order of first discovery. -/
def firstOccs (pts : List Point) : List Point :=
  pts.foldl addFirstOcc []

/-- Spec-side index of a point in a list of distinct points: position
of its first occurrence (exact equality). -/
def idxOf (p : Point) : List Point → ℕ
  | [] => 0
  | q :: qs => if p = q then 0 else idxOf p qs + 1

/-- Pair each point of a list with consecutive indices starting at
`k`: the shape of the welding set's contents after processing, written
as explicit `LocalVertex` records. -/
def recordsFrom (k : ℕ) : List Point → List LocalVertex
  | [] => []
  | p :: ps => ⟨p, k⟩ :: recordsFrom (k + 1) ps

theorem mem_foldl_addFirstOcc (l : List Point) :
    ∀ (acc : List Point) (x : Point),
      x ∈ l.foldl addFirstOcc acc ↔ x ∈ acc ∨ x ∈ l := by
  induction l with
  | nil => simp
  | cons p l ih =>
    intro acc x
    rw [List.foldl_cons, ih]
    by_cases hp : p ∈ acc
    · simp only [addFirstOcc, if_pos hp, List.mem_cons]
      constructor
      · tauto
      · rintro (h | rfl | h)
        · exact Or.inl h
        · exact Or.inl hp
        · exact Or.inr h
    · simp only [addFirstOcc, if_neg hp, List.mem_append,
        List.mem_singleton, List.mem_cons]
      tauto

theorem mem_firstOccs (pts : List Point) (x : Point) :
    x ∈ firstOccs pts ↔ x ∈ pts := by
  have h := mem_foldl_addFirstOcc pts [] x
  simpa [firstOccs] using h

theorem firstOccs_append_singleton (pts : List Point) (p : Point) :
    firstOccs (pts ++ [p]) = addFirstOcc (firstOccs pts) p := by
  simp [firstOccs, List.foldl_append]

theorem nodup_foldl_addFirstOcc (l : List Point) :
    ∀ acc : List Point, acc.Nodup → (l.foldl addFirstOcc acc).Nodup := by
  induction l with
  | nil => intro acc h; simpa using h
  | cons p l ih =>
    intro acc h
    rw [List.foldl_cons]
    apply ih
    by_cases hp : p ∈ acc
    · simpa [addFirstOcc, hp] using h
    · simp [addFirstOcc, hp, List.nodup_append, h, List.disjoint_singleton]

theorem nodup_firstOccs (pts : List Point) : (firstOccs pts).Nodup :=
  nodup_foldl_addFirstOcc pts [] List.nodup_nil

theorem idxOf_lt_length (p : Point) (l : List Point) (h : p ∈ l) :
    idxOf p l < l.length := by
  induction l with
  | nil => simp at h
  | cons q qs ih =>
    by_cases hq : p = q
    · simp [idxOf, hq]
    · rcases List.mem_cons.mp h with h' | h'
      · exact absurd h' hq
      · simpa [idxOf, hq] using Nat.succ_lt_succ (ih h')

theorem idxOf_append_mem (p : Point) (l l2 : List Point) (h : p ∈ l) :
    idxOf p (l ++ l2) = idxOf p l := by
  induction l with
  | nil => simp at h
  | cons q qs ih =>
    by_cases hq : p = q
    · simp [idxOf, hq]
    · rcases List.mem_cons.mp h with h' | h'
      · exact absurd h' hq
      · simp [idxOf, hq, ih h']

theorem idxOf_append_self (p : Point) (l : List Point) (h : p ∉ l) :
    idxOf p (l ++ [p]) = l.length := by
  induction l with
  | nil => simp [idxOf]
  | cons q qs ih =>
    have hq : p ≠ q := fun e => h (List.mem_cons.mpr (Or.inl e))
    have h' : p ∉ qs := fun e => h (List.mem_cons.mpr (Or.inr e))
    simp [idxOf, hq, ih h']

theorem recordsFrom_append (l : List Point) :
    ∀ (k : ℕ) (p : Point),
      recordsFrom k (l ++ [p]) = recordsFrom k l ++ [⟨p, k + l.length⟩] := by
  induction l with
  | nil => intro k p; simp [recordsFrom]
  | cons q qs ih =>
    intro k p
    have hidx : (⟨p, k + 1 + qs.length⟩ : LocalVertex) =
        ⟨p, k + (qs.length + 1)⟩ := by
      congr 1
      omega
    show (⟨q, k⟩ : LocalVertex) :: recordsFrom (k + 1) (qs ++ [p]) =
      (⟨q, k⟩ : LocalVertex) :: recordsFrom (k + 1) qs ++
        [⟨p, k + (qs.length + 1)⟩]
    rw [ih (k + 1) p, hidx, List.cons_append]

theorem length_recordsFrom (l : List Point) :
    ∀ k : ℕ, (recordsFrom k l).length = l.length := by
  induction l with
  | nil => intro k; rfl
  | cons q qs ih => intro k; simp [recordsFrom, ih (k + 1)]

theorem map_pos_recordsFrom (l : List Point) :
    ∀ k : ℕ, (recordsFrom k l).map (fun r => r.pos) = l := by
  induction l with
  | nil => intro k; rfl
  | cons q qs ih => intro k; simp [recordsFrom, ih (k + 1)]

theorem find?_recordsFrom_of_not_mem (l : List Point) :
    ∀ (k : ℕ) (p : Point), p ∉ l →
      (recordsFrom k l).find? (fun r => setEquiv r.pos p) = none := by
  induction l with
  | nil => intro k p _; rfl
  | cons q qs ih =>
    intro k p hp
    have hq : ¬q = p := fun e => hp (List.mem_cons.mpr (Or.inl e.symm))
    have hqs : p ∉ qs := fun e => hp (List.mem_cons.mpr (Or.inr e))
    have hfalse : setEquiv q p = false := by
      rcases Bool.eq_false_or_eq_true (setEquiv q p) with h | h
      · exact absurd ((setEquiv_iff_eq q p).mp h) hq
      · exact h
    rw [recordsFrom, List.find?_cons_of_neg, ih (k + 1) p hqs]
    simpa using hfalse

theorem find?_recordsFrom_of_mem (l : List Point) :
    ∀ (k : ℕ) (p : Point), p ∈ l →
      (recordsFrom k l).find? (fun r => setEquiv r.pos p) =
        some ⟨p, k + idxOf p l⟩ := by
  induction l with
  | nil => intro k p hp; simp at hp
  | cons q qs ih =>
    intro k p hp
    by_cases hq : p = q
    · subst hq
      have htrue : setEquiv p p = true := (setEquiv_iff_eq p p).mpr rfl
      rw [recordsFrom, List.find?_cons_of_pos]
      · simp [idxOf]
      · simpa using htrue
    · have hqs : p ∈ qs := by
        rcases List.mem_cons.mp hp with h' | h'
        · exact absurd h' hq
        · exact h'
      have hfalse : setEquiv q p = false := by
        rcases Bool.eq_false_or_eq_true (setEquiv q p) with h | h
        · exact absurd ((setEquiv_iff_eq q p).mp h).symm hq
        · exact h
      rw [recordsFrom, List.find?_cons_of_neg, ih (k + 1) p hqs]
      · congr 1
        simp only [idxOf, if_neg hq]
        congr 1
        omega
      · simpa using hfalse

theorem mem_recordsFrom_index (l : List Point) :
    ∀ (k : ℕ) (r : LocalVertex), r ∈ recordsFrom k l → k ≤ r.index := by
  induction l with
  | nil => intro k r h; simp [recordsFrom] at h
  | cons q qs ih =>
    intro k r h
    rcases List.mem_cons.mp h with h' | h'
    · subst h'; exact le_refl k
    · exact le_trans (Nat.le_succ k) (ih (k + 1) r h')

theorem insertByIndex_recordsFrom (qs : List Point) (k : ℕ)
    (r : LocalVertex) (h : r.index ≤ k) :
    insertByIndex r (recordsFrom k qs) = r :: recordsFrom k qs := by
  cases qs with
  | nil => rfl
  | cons q qs => simp [recordsFrom, insertByIndex, h]

theorem sortByIndex_recordsFrom (l : List Point) :
    ∀ k : ℕ, sortByIndex (recordsFrom k l) = recordsFrom k l := by
  induction l with
  | nil => intro k; rfl
  | cons q qs ih =>
    intro k
    have step := ih (k + 1)
    simp only [recordsFrom, sortByIndex, List.foldr_cons]
    rw [show (recordsFrom (k + 1) qs).foldr insertByIndex [] =
      sortByIndex (recordsFrom (k + 1) qs) from rfl, step]
    exact insertByIndex_recordsFrom qs (k + 1) ⟨q, k⟩ (Nat.le_succ k)

/-- The welding fold refines the spec-side first-discovery description:
after processing a point list, the set holds exactly the distinct
points in first-discovery order with consecutive indices, and the
triangle list maps each input point to its first-discovery index. -/
theorem weld_foldl_spec (pts : List Point) :
    pts.foldl weldStep ⟨[], []⟩ =
      ⟨recordsFrom 0 (firstOccs pts),
       pts.map (fun p => idxOf p (firstOccs pts))⟩ := by
  induction pts using List.reverseRecOn with
  | nil => rfl
  | append_singleton pts p ih =>
    rw [List.foldl_append, List.foldl_cons, List.foldl_nil, ih]
    by_cases hp : p ∈ firstOccs pts
    · have hfind := find?_recordsFrom_of_mem (firstOccs pts) 0 p hp
      have hFO : firstOccs (pts ++ [p]) = firstOccs pts := by
        rw [firstOccs_append_singleton]
        simp [addFirstOcc, hp]
      simp only [weldStep, hfind, hFO, List.map_append, List.map_cons,
        List.map_nil, Nat.zero_add]
    · have hfind := find?_recordsFrom_of_not_mem (firstOccs pts) 0 p hp
      have hFO : firstOccs (pts ++ [p]) = firstOccs pts ++ [p] := by
        rw [firstOccs_append_singleton]
        simp [addFirstOcc, hp]
      have hmap : pts.map (fun q => idxOf q (firstOccs pts ++ [p])) =
          pts.map (fun q => idxOf q (firstOccs pts)) := by
        apply List.map_congr_left
        intro q hq
        exact idxOf_append_mem q _ [p] ((mem_firstOccs pts q).mpr hq)
      simp only [weldStep, hfind, hFO, List.map_append, List.map_cons,
        List.map_nil, hmap, recordsFrom_append, Nat.zero_add,
        length_recordsFrom, idxOf_append_self p (firstOccs pts) hp]

/-- Decomposing `take` one element at a time (with an in-bounds
default-read). -/
theorem take_succ_getD {α : Type _} (l : List α) (m : ℕ) (d : α)
    (h : m < l.length) :
    l.take (m + 1) = l.take m ++ [l.getD m d] := by
  rw [List.take_succ]
  congr 1
  rw [List.getD_eq_getElem?_getD, List.getElem?_eq_getElem h]
  rfl

/-- The triple-at-a-time welding loop over `n` triangles equals a plain
left fold of `weldStep` over the first `3 n` input points. -/
theorem weldLoop_eq_take (source : List Point) :
    ∀ n : ℕ, 3 * n ≤ source.length →
      weldLoop source n = (source.take (3 * n)).foldl weldStep ⟨[], []⟩ := by
  intro n
  induction n with
  | zero => intro _; rfl
  | succ n ih =>
    intro h
    have h3 : 3 * n ≤ source.length := by omega
    have hstep : weldLoop source (n + 1) =
        weldTriple source (weldLoop source n) n := by
      rw [weldLoop, List.range_succ, List.foldl_append, List.foldl_cons,
        List.foldl_nil]
      rfl
    have hdecomp : source.take (3 * (n + 1)) =
        source.take (3 * n) ++
          [source.getD (3 * n) (0, 0, 0), source.getD (3 * n + 1) (0, 0, 0),
           source.getD (3 * n + 2) (0, 0, 0)] := by
      have e : 3 * (n + 1) = 3 * n + 2 + 1 := by omega
      rw [e, take_succ_getD source (3 * n + 2) (0, 0, 0) (by omega),
        show 3 * n + 2 = 3 * n + 1 + 1 from rfl,
        take_succ_getD source (3 * n + 1) (0, 0, 0) (by omega),
        take_succ_getD source (3 * n) (0, 0, 0) (by omega)]
      simp [List.append_assoc]
    rw [hstep, ih h3, hdecomp, List.foldl_append, List.foldl_cons,
      List.foldl_cons, List.foldl_cons, List.foldl_nil]
    rfl

/-- Copying a set state whose records are consecutively indexed into
the mesh keeps the points in index order. -/
theorem finalizeState_records (l : List Point) (t : List ℕ) :
    finalizeState ⟨recordsFrom 0 l, t⟩ = ⟨l, t⟩ := by
  simp [finalizeState, sortByIndex_recordsFrom, map_pos_recordsFrom]

/-- Full behaviour of the raw-triple entry point on a sufficient input:
the returned mesh lists the distinct points of the processed prefix in
first-discovery order and maps every processed point to its
first-discovery index. -/
theorem createMeshFromVerticesRaw_spec (source : List Point)
    (h3 : 3 ≤ source.length) :
    createMeshFromVerticesRaw source =
      some ⟨firstOccs (source.take (3 * (source.length / 3))),
        (source.take (3 * (source.length / 3))).map
          (fun p =>
            idxOf p (firstOccs (source.take (3 * (source.length / 3)))))⟩ := by
  have hle : 3 * (source.length / 3) ≤ source.length := by
    calc 3 * (source.length / 3) = source.length / 3 * 3 := Nat.mul_comm _ _
    _ ≤ source.length := Nat.div_mul_le_self _ _
  rw [createMeshFromVerticesRaw, createMeshFromVerticesLogged,
    if_neg (not_lt.mpr h3)]
  rw [show ((if source.length % 3 ≠ 0 then [Severity.error] else []),
      some (finalizeState (weldLoop source (source.length / 3)))).2 =
      some (finalizeState (weldLoop source (source.length / 3))) from rfl]
  rw [weldLoop_eq_take source (source.length / 3) hle, weld_foldl_spec,
    finalizeState_records]

/-- Concrete input for the C1 witness. -/
def exC1src : List Point := [(0, 0, 0), (1, 0, 0), (0, 0, 0)]

/-- The mesh the raw-triple entry point returns on `exC1src`. -/
def exC1mesh : RawMesh := ⟨[(0, 0, 0), (1, 0, 0)], [0, 1, 0]⟩

/-- Claim C1: for the raw-triple entry point, welding assigns indices
in first-discovery order — the returned vertex table is the list of
distinct processed points in order of first discovery (hence without
duplicates), and each processed point's emitted triangle index is the
position of its first discovery: a duplicate reuses the first-seen
index, a new point gets the current distinct-vertex count. -/
theorem claim_C1 (source : List Point) (m : RawMesh)
    (h : createMeshFromVerticesRaw source = some m) :
    m.vertices = firstOccs (source.take (3 * (source.length / 3))) ∧
    m.vertices.Nodup ∧
    m.triangles = (source.take (3 * (source.length / 3))).map
      (fun p =>
        idxOf p (firstOccs (source.take (3 * (source.length / 3))))) := by
  have h3 : 3 ≤ source.length := by
    by_contra hlt
    rw [createMeshFromVerticesRaw, createMeshFromVerticesLogged,
      if_pos (by omega)] at h
    simp at h
  rw [createMeshFromVerticesRaw_spec source h3] at h
  have hm := (Option.some.inj h).symm
  subst hm
  exact ⟨rfl, nodup_firstOccs _, rfl⟩

/-- Witness for C1 at the concrete input
[(0,0,0), (1,0,0), (0,0,0)]. -/
theorem claim_C1_witness :
    exC1mesh.vertices =
        firstOccs (exC1src.take (3 * (exC1src.length / 3))) ∧
    exC1mesh.vertices.Nodup ∧
    exC1mesh.triangles = (exC1src.take (3 * (exC1src.length / 3))).map
      (fun p =>
        idxOf p (firstOccs (exC1src.take (3 * (exC1src.length / 3))))) :=
  claim_C1 exC1src exC1mesh (by decide)

/-- Claim C2: on the three points (0,0,0), (1,0,0), (0,0,0) the
raw-triple entry point returns a mesh with exactly 2 vertices and 1
triangle whose index triple is (0, 1, 0). -/
theorem claim_C2 :
    (createMeshFromVerticesRaw
        [(0, 0, 0), (1, 0, 0), (0, 0, 0)]).map RawMesh.vertexCount =
      some 2 ∧
    (createMeshFromVerticesRaw
        [(0, 0, 0), (1, 0, 0), (0, 0, 0)]).map RawMesh.triangleCount =
      some 1 ∧
    (createMeshFromVerticesRaw
        [(0, 0, 0), (1, 0, 0), (0, 0, 0)]).map RawMesh.triangles =
      some [0, 1, 0] := by
  decide

/-- Claim C5: fewer than 3 points always yields the explicit absence
value (`none`), with no crash-level fault (the function is total). -/
theorem claim_C5 (source : List Point) (h : source.length < 3) :
    createMeshFromVerticesRaw source = none := by
  rw [createMeshFromVerticesRaw, createMeshFromVerticesLogged, if_pos h]

/-- Witness for C5 at a concrete 2-point input. -/
theorem claim_C5_witness :
    createMeshFromVerticesRaw [(0, 0, 0), (1, 1, 1)] = none :=
  claim_C5 [(0, 0, 0), (1, 1, 1)] (by decide)

/-- Concrete 4-point input (count ≥ 3, not divisible by 3) used for the
C6 counterexample and witness. -/
def exC6src : List Point := [(0, 0, 0), (1, 0, 0), (0, 0, 0), (5, 5, 5)]

/-- Counterexample to C6 as stated: on a 4-point input the diagnostic
the code emits for a count not divisible by 3 is `logError`
(src/src/mesh_operations.cpp line 139), i.e. error severity — no
warning-severity diagnostic is emitted. -/
theorem claim_C6_cex :
    3 ≤ exC6src.length ∧ exC6src.length % 3 ≠ 0 ∧
    Severity.warning ∉ (createMeshFromVerticesLogged exC6src).1 := by
  decide

/-- Claim C6 (amended): a point count at least 3 but not divisible by 3
emits one error-severity — still non-fatal — diagnostic and succeeds,
building the mesh from only the first 3 * floor(count / 3) points. -/
theorem claim_C6 (source : List Point) (h3 : 3 ≤ source.length)
    (hmod : source.length % 3 ≠ 0) :
    (createMeshFromVerticesLogged source).1 = [Severity.error] ∧
    (createMeshFromVerticesLogged source).2 =
      some (finalizeState
        ((source.take (3 * (source.length / 3))).foldl weldStep ⟨[], []⟩)) := by
  have hle : 3 * (source.length / 3) ≤ source.length := by
    calc 3 * (source.length / 3) = source.length / 3 * 3 := Nat.mul_comm _ _
    _ ≤ source.length := Nat.div_mul_le_self _ _
  constructor
  · rw [createMeshFromVerticesLogged, if_neg (not_lt.mpr h3)]
    simp [hmod]
  · rw [createMeshFromVerticesLogged, if_neg (not_lt.mpr h3)]
    show some (finalizeState (weldLoop source (source.length / 3))) = _
    rw [weldLoop_eq_take source (source.length / 3) hle]

/-- Witness for the amended C6 at the concrete 4-point input. -/
theorem claim_C6_witness :
    (createMeshFromVerticesLogged exC6src).1 = [Severity.error] ∧
    (createMeshFromVerticesLogged exC6src).2 =
      some (finalizeState
        ((exC6src.take (3 * (exC6src.length / 3))).foldl weldStep
          ⟨[], []⟩)) :=
  claim_C6 exC6src (by decide) (by decide)

/-- A real-valued 3-D vector, used for the normal computation. -/
abbrev Vec3R : Type := ℝ × ℝ × ℝ

/-- Inclusion of exact coordinates into the reals. -/
def toR (p : Point) : Vec3R := ((p.1 : ℝ), (p.2.1 : ℝ), (p.2.2 : ℝ))

/-- Component-wise vector difference. -/
def vsub (a b : Vec3R) : Vec3R :=
  (a.1 - b.1, a.2.1 - b.2.1, a.2.2 - b.2.2)

/-- Component-wise vector sum. -/
def vaddV (a b : Vec3R) : Vec3R :=
  (a.1 + b.1, a.2.1 + b.2.1, a.2.2 + b.2.2)

/-- Sum of a list of vectors. -/
def sumV (l : List Vec3R) : Vec3R := l.foldr vaddV (0, 0, 0)

/-- The 3-D cross product. -/
def cross3 (u v : Vec3R) : Vec3R :=
  (u.2.1 * v.2.2 - u.2.2 * v.2.1,
   u.2.2 * v.1 - u.1 * v.2.2,
   u.1 * v.2.1 - u.2.1 * v.1)

/-- Euclidean length of a vector. -/
noncomputable def vlen (v : Vec3R) : ℝ :=
  Real.sqrt (v.1 ^ 2 + v.2.1 ^ 2 + v.2.2 ^ 2)

/-- Modelled from the spec: the normalization used by the missing
`Mesh::computeTriangleNormals` / `Mesh::computeVertexNormals` (called
at src/src/mesh_operations.cpp lines 127-128 but defined outside the
provided source) — divide by the Euclidean length, and deterministically
return the zero vector for a zero-length input instead of an undefined
or NaN result. -/
noncomputable def normalize3 (v : Vec3R) : Vec3R :=
  if vlen v = 0 then (0, 0, 0)
  else (v.1 / vlen v, v.2.1 / vlen v, v.2.2 / vlen v)

/-- Modelled from the spec: per-triangle normal of triangle (a, b, c)
is normalize((b − a) × (c − a)). -/
noncomputable def triNormalPts (a b c : Vec3R) : Vec3R :=
  normalize3 (cross3 (vsub b a) (vsub c a))

/-- Position of vertex `i` of a mesh (as a real vector). -/
def RawMesh.vertexAt (m : RawMesh) (i : ℕ) : Vec3R :=
  toR (m.vertices.getD i (0, 0, 0))

/-- The index triple of triangle `i` of a mesh. -/
def RawMesh.triIndexAt (m : RawMesh) (i : ℕ) : ℕ × ℕ × ℕ :=
  (m.triangles.getD (3 * i) 0, m.triangles.getD (3 * i + 1) 0,
   m.triangles.getD (3 * i + 2) 0)

/-- Modelled from the spec: the normal of triangle `i` of the mesh. -/
noncomputable def RawMesh.triNormalAt (m : RawMesh) (i : ℕ) : Vec3R :=
  triNormalPts (m.vertexAt (m.triIndexAt i).1)
    (m.vertexAt (m.triIndexAt i).2.1) (m.vertexAt (m.triIndexAt i).2.2)

/-- The triangles of the mesh referencing vertex `v`. -/
def RawMesh.incidentTris (m : RawMesh) (v : ℕ) : List ℕ :=
  (List.range m.triangleCount).filter
    (fun i => (m.triIndexAt i).1 == v || (m.triIndexAt i).2.1 == v ||
      (m.triIndexAt i).2.2 == v)

/-- Modelled from the spec: the per-vertex normal of vertex `v` — sum
the unit normals of every triangle referencing the vertex (no area
weighting) and normalize the sum; the empty sum is the zero vector. -/
noncomputable def RawMesh.vertNormalAt (m : RawMesh) (v : ℕ) : Vec3R :=
  normalize3 (sumV ((m.incidentTris v).map m.triNormalAt))

/-- A mesh together with its computed normal arrays: the full `Mesh`
entity of the C++ code. -/
structure NormaledMesh where
  base : RawMesh
  triNormals : List Vec3R
  vertNormals : List Vec3R

/-- Modelled from the spec: the normal-computation pass run by the
missing `Mesh::computeTriangleNormals` / `Mesh::computeVertexNormals`
over a finished (positions, indices) pair — one normal per triangle and
one per vertex. -/
noncomputable def computeNormals (m : RawMesh) : NormaledMesh :=
  ⟨m, (List.range m.triangleCount).map m.triNormalAt,
   (List.range m.vertexCount).map m.vertNormalAt⟩

theorem vlen_zero : vlen ((0 : ℝ), (0 : ℝ), (0 : ℝ)) = 0 := by
  have h : ((0 : ℝ) ^ 2 + (0 : ℝ) ^ 2 + (0 : ℝ) ^ 2) = 0 := by norm_num
  rw [vlen]
  rw [show (((0 : ℝ), (0 : ℝ), (0 : ℝ)) : Vec3R).1 = (0 : ℝ) from rfl]
  simp [Real.sqrt_eq_zero']

theorem normalize3_zero : normalize3 ((0 : ℝ), (0 : ℝ), (0 : ℝ)) = (0, 0, 0) := by
  rw [normalize3, if_pos vlen_zero]

theorem getD_map_range {α : Type _} (n i : ℕ) (f : ℕ → α) (d : α)
    (h : i < n) : ((List.range n).map f).getD i d = f i := by
  rw [List.getD_eq_getElem?_getD, List.getElem?_map, List.getElem?_range h]
  rfl

/-- Claim C9: every stored per-triangle normal equals
normalize((b − a) × (c − a)); a degenerate (zero cross product)
triangle yields exactly the zero vector; a vertex referenced by no
triangle, or whose incident unit normals sum to exactly zero, gets a
zero per-vertex normal — all without any undefined result (the
functions are total). -/
theorem claim_C9 :
    (∀ (m : RawMesh) (i : ℕ), i < m.triangleCount →
      (computeNormals m).triNormals.getD i (0, 0, 0) =
        normalize3 (cross3
          (vsub (m.vertexAt (m.triIndexAt i).2.1)
            (m.vertexAt (m.triIndexAt i).1))
          (vsub (m.vertexAt (m.triIndexAt i).2.2)
            (m.vertexAt (m.triIndexAt i).1)))) ∧
    (∀ a b c : Vec3R, cross3 (vsub b a) (vsub c a) = (0, 0, 0) →
      triNormalPts a b c = (0, 0, 0)) ∧
    (∀ (m : RawMesh) (v : ℕ), m.incidentTris v = [] →
      m.vertNormalAt v = (0, 0, 0)) ∧
    (∀ (m : RawMesh) (v : ℕ),
      sumV ((m.incidentTris v).map m.triNormalAt) = (0, 0, 0) →
      m.vertNormalAt v = (0, 0, 0)) := by
  refine ⟨?_, ?_, ?_, ?_⟩
  · intro m i hi
    rw [show (computeNormals m).triNormals =
      (List.range m.triangleCount).map m.triNormalAt from rfl]
    rw [getD_map_range m.triangleCount i m.triNormalAt (0, 0, 0) hi]
    rfl
  · intro a b c h
    rw [triNormalPts, h, normalize3_zero]
  · intro m v h
    rw [RawMesh.vertNormalAt, h]
    exact normalize3_zero
  · intro m v h
    rw [RawMesh.vertNormalAt, h, normalize3_zero]

/-- Concrete mesh for the C9 witness: two vertices, one degenerate
triangle (0, 1, 0). -/
def exC9mesh : RawMesh := ⟨[(0, 0, 0), (1, 0, 0)], [0, 1, 0]⟩

/-- Witness for C9: concrete instantiations of each guarded part —
triangle 0 of the concrete mesh, three collinear points whose cross
product vanishes, and unreferenced vertices 4 and 5. -/
theorem claim_C9_witness :
    (0 < exC9mesh.triangleCount) ∧
    ((computeNormals exC9mesh).triNormals.getD 0 (0, 0, 0) =
      normalize3 (cross3
        (vsub (exC9mesh.vertexAt (exC9mesh.triIndexAt 0).2.1)
          (exC9mesh.vertexAt (exC9mesh.triIndexAt 0).1))
        (vsub (exC9mesh.vertexAt (exC9mesh.triIndexAt 0).2.2)
          (exC9mesh.vertexAt (exC9mesh.triIndexAt 0).1)))) ∧
    (cross3 (vsub ((1 : ℝ), (0 : ℝ), (0 : ℝ)) (0, 0, 0))
      (vsub ((2 : ℝ), (0 : ℝ), (0 : ℝ)) (0, 0, 0)) = (0, 0, 0)) ∧
    (triNormalPts ((0 : ℝ), (0 : ℝ), (0 : ℝ)) (1, 0, 0) (2, 0, 0) =
      (0, 0, 0)) ∧
    (exC9mesh.incidentTris 4 = []) ∧
    (exC9mesh.vertNormalAt 4 = (0, 0, 0)) ∧
    (sumV ((exC9mesh.incidentTris 5).map exC9mesh.triNormalAt) =
      (0, 0, 0)) ∧
    (exC9mesh.vertNormalAt 5 = (0, 0, 0)) := by
  have hcross : cross3 (vsub ((1 : ℝ), (0 : ℝ), (0 : ℝ)) (0, 0, 0))
      (vsub ((2 : ℝ), (0 : ℝ), (0 : ℝ)) (0, 0, 0)) = (0, 0, 0) := by
    norm_num [cross3, vsub]
  have hsum : sumV ((exC9mesh.incidentTris 5).map exC9mesh.triNormalAt) =
      (0, 0, 0) := by
    rw [show exC9mesh.incidentTris 5 = [] from by decide]
    rfl
  exact ⟨by decide, claim_C9.1 exC9mesh 0 (by decide),
    hcross, claim_C9.2.1 (0, 0, 0) (1, 0, 0) (2, 0, 0) hcross,
    by decide, claim_C9.2.2.1 exC9mesh 4 (by decide),
    hsum, claim_C9.2.2.2 exC9mesh 5 hsum⟩

/-- Concrete input and mesh for the C4 witness. -/
def exC4src : List Point := [(1, 2, 3), (4, 5, 6), (1, 2, 3)]

/-- The mesh the raw-triple entry point returns on `exC4src`. -/
def exC4mesh : RawMesh := ⟨[(1, 2, 3), (4, 5, 6)], [0, 1, 0]⟩

/-- Claim C4: every mesh returned by the raw-triple entry point has all
its triangle indices strictly below the vertex count, and all four
arrays fully populated: N positions, 3·M triangle indices, M
per-triangle normals and N per-vertex normals. -/
theorem claim_C4 (source : List Point) (m : RawMesh)
    (h : createMeshFromVerticesRaw source = some m) :
    (∀ t ∈ m.triangles, t < m.vertexCount) ∧
    m.vertices.length = m.vertexCount ∧
    m.triangles.length = 3 * m.triangleCount ∧
    (computeNormals m).triNormals.length = m.triangleCount ∧
    (computeNormals m).vertNormals.length = m.vertexCount := by
  have h3 : 3 ≤ source.length := by
    by_contra hlt
    rw [createMeshFromVerticesRaw, createMeshFromVerticesLogged,
      if_pos (by omega)] at h
    simp at h
  have hle : 3 * (source.length / 3) ≤ source.length := by
    calc 3 * (source.length / 3) = source.length / 3 * 3 := Nat.mul_comm _ _
    _ ≤ source.length := Nat.div_mul_le_self _ _
  rw [createMeshFromVerticesRaw_spec source h3] at h
  have hm := (Option.some.inj h).symm
  subst hm
  have hlen : (source.take (3 * (source.length / 3))).length =
      3 * (source.length / 3) := by
    rw [List.length_take]
    exact min_eq_left hle
  refine ⟨?_, rfl, ?_, ?_, ?_⟩
  · intro t ht
    obtain ⟨q, hq, rfl⟩ := List.mem_map.mp ht
    exact idxOf_lt_length q _ ((mem_firstOccs _ q).mpr hq)
  · show (List.map _ _).length = 3 * ((List.map _ _).length / 3)
    rw [List.length_map, hlen]
    omega
  · show ((List.range _).map _).length = _
    rw [List.length_map, List.length_range]
  · show ((List.range _).map _).length = _
    rw [List.length_map, List.length_range]

/-- Witness for C4 at the concrete input [(1,2,3), (4,5,6), (1,2,3)]:
both triangle indices are below the vertex count and the four array
lengths agree with the counts. -/
theorem claim_C4_witness :
    (0 < exC4mesh.vertexCount) ∧ (1 < exC4mesh.vertexCount) ∧
    exC4mesh.vertices.length = exC4mesh.vertexCount ∧
    exC4mesh.triangles.length = 3 * exC4mesh.triangleCount ∧
    (computeNormals exC4mesh).triNormals.length = exC4mesh.triangleCount ∧
    (computeNormals exC4mesh).vertNormals.length = exC4mesh.vertexCount := by
  have h := claim_C4 exC4src exC4mesh (by decide)
  exact ⟨h.1 0 (by decide), h.1 1 (by decide), h.2.1, h.2.2.1,
    h.2.2.2.1, h.2.2.2.2⟩

/-- Modelled from the spec: the external importer's 4×4 affine
transform type (`aiMatrix4x4`), row-major with rows a, b, c, d. -/
structure Mat4 where
  a1 : ℚ
  a2 : ℚ
  a3 : ℚ
  a4 : ℚ
  b1 : ℚ
  b2 : ℚ
  b3 : ℚ
  b4 : ℚ
  c1 : ℚ
  c2 : ℚ
  c3 : ℚ
  c4 : ℚ
  d1 : ℚ
  d2 : ℚ
  d3 : ℚ
  d4 : ℚ
deriving DecidableEq, Repr

/-- The identity transform (`aiMatrix4x4()` default construction). -/
def mat4Id : Mat4 := ⟨1, 0, 0, 0, 0, 1, 0, 0, 0, 0, 1, 0, 0, 0, 0, 1⟩

/-- Modelled from the spec: standard matrix product, so that
`mat4Mul p l` is the composite applying `l` first and then `p`
(scene-graph composition order; `transform = parent_transform;
transform *= node->mTransformation` at src/src/mesh_operations.cpp
lines 289-290). -/
def mat4Mul (m n : Mat4) : Mat4 where
  a1 := m.a1 * n.a1 + m.a2 * n.b1 + m.a3 * n.c1 + m.a4 * n.d1
  a2 := m.a1 * n.a2 + m.a2 * n.b2 + m.a3 * n.c2 + m.a4 * n.d2
  a3 := m.a1 * n.a3 + m.a2 * n.b3 + m.a3 * n.c3 + m.a4 * n.d3
  a4 := m.a1 * n.a4 + m.a2 * n.b4 + m.a3 * n.c4 + m.a4 * n.d4
  b1 := m.b1 * n.a1 + m.b2 * n.b1 + m.b3 * n.c1 + m.b4 * n.d1
  b2 := m.b1 * n.a2 + m.b2 * n.b2 + m.b3 * n.c2 + m.b4 * n.d2
  b3 := m.b1 * n.a3 + m.b2 * n.b3 + m.b3 * n.c3 + m.b4 * n.d3
  b4 := m.b1 * n.a4 + m.b2 * n.b4 + m.b3 * n.c4 + m.b4 * n.d4
  c1 := m.c1 * n.a1 + m.c2 * n.b1 + m.c3 * n.c1 + m.c4 * n.d1
  c2 := m.c1 * n.a2 + m.c2 * n.b2 + m.c3 * n.c2 + m.c4 * n.d2
  c3 := m.c1 * n.a3 + m.c2 * n.b3 + m.c3 * n.c3 + m.c4 * n.d3
  c4 := m.c1 * n.a4 + m.c2 * n.b4 + m.c3 * n.c4 + m.c4 * n.d4
  d1 := m.d1 * n.a1 + m.d2 * n.b1 + m.d3 * n.c1 + m.d4 * n.d1
  d2 := m.d1 * n.a2 + m.d2 * n.b2 + m.d3 * n.c2 + m.d4 * n.d2
  d3 := m.d1 * n.a3 + m.d2 * n.b3 + m.d3 * n.c3 + m.d4 * n.d3
  d4 := m.d1 * n.a4 + m.d2 * n.b4 + m.d3 * n.c4 + m.d4 * n.d4

/-- Modelled from the spec: applying an affine 4×4 transform to a 3-D
point (`aiMatrix4x4 * aiVector3D`: the point is extended with 1, the
fourth row is ignored). -/
def transformPoint (m : Mat4) (v : Point) : Point :=
  (m.a1 * v.1 + m.a2 * v.2.1 + m.a3 * v.2.2 + m.a4,
   m.b1 * v.1 + m.b2 * v.2.1 + m.b3 * v.2.2 + m.b4,
   m.c1 * v.1 + m.c2 * v.2.1 + m.c3 * v.2.2 + m.c4)

/-- Component-wise multiplication by the per-axis scale triple
(src/src/mesh_operations.cpp line 298). -/
def compScale (scale v : Point) : Point :=
  (v.1 * scale.1, v.2.1 * scale.2.1, v.2.2 * scale.2.2)

/-- A primitive mesh of the imported scene (`aiMesh`, read-only
external input): vertex positions and faces, each face a list of
vertex indices (only faces with exactly 3 indices are kept by the
flattening). -/
structure SceneMesh where
  verts : List Point
  faces : List (List ℕ)

/-- A node of the imported scene graph (`aiNode`, read-only external
input): a local transform, indices into the scene's mesh array, and an
ordered list of children. -/
inductive SceneNode where
  | mk (transform : Mat4) (meshIdxs : List ℕ) (children : List SceneNode)

/-- The imported scene (`aiScene`): the mesh array and the root node. -/
structure Scene where
  meshes : List SceneMesh
  rootNode : SceneNode

/-- Processing one attached mesh inside `extractMeshData`
(src/src/mesh_operations.cpp lines 293-306): record the base offset
(current global vertex count), append each vertex transformed by the
cumulative transform and then multiplied component-wise by the scale,
and append the offset-adjusted indices of every face that has exactly
3 indices (others are silently dropped). -/
def extractMesh (t : Mat4) (scale : Point)
    (acc : List Point × List ℕ) (a : SceneMesh) : List Point × List ℕ :=
  (acc.1 ++ a.verts.map (fun v => compScale scale (transformPoint t v)),
   acc.2 ++ (a.faces.filter (fun f => f.length == 3)).flatMap
     (fun f => f.map (fun ix => acc.1.length + ix)))

mutual

/-- Embedding of `extractMeshData`
(src/src/mesh_operations.cpp lines 286-311): compute the cumulative
transform (parent composed with the node's local transform), process
the node's attached meshes in order, then recurse into the children in
their given order.  Mesh indices that fall outside the scene's mesh
array (impossible in a well-formed import) are skipped. -/
def extractNode (ms : List SceneMesh) (scale : Point) :
    SceneNode → Mat4 → List Point × List ℕ → List Point × List ℕ
  | SceneNode.mk t mi cs, pt, acc =>
    extractNodes ms scale cs (mat4Mul pt t)
      ((mi.filterMap (fun j => ms[j]?)).foldl
        (extractMesh (mat4Mul pt t) scale) acc)

/-- The child-recursion loop of `extractMeshData`
(src/src/mesh_operations.cpp lines 309-310). -/
def extractNodes (ms : List SceneMesh) (scale : Point) :
    List SceneNode → Mat4 → List Point × List ℕ → List Point × List ℕ
  | [], _, acc => acc
  | c :: cs, t, acc => extractNodes ms scale cs t (extractNode ms scale c t acc)

end

/-- Embedding of `createMeshFromAsset(scene, scale, resource_name)`
(src/src/mesh_operations.cpp lines 320-342): no meshes in the scene —
no mesh; after traversal, empty vertex list — no mesh; empty triangle
list — no mesh; otherwise the flat, unwelded pair goes to the
pre-indexed build path. -/
def createMeshFromAsset (scene : Scene) (scale : Point) : Option RawMesh :=
  if scene.meshes.isEmpty then none
  else
    if (extractNode scene.meshes scale scene.rootNode mat4Id ([], [])).1.isEmpty
    then none
    else
      if (extractNode scene.meshes scale scene.rootNode mat4Id
          ([], [])).2.isEmpty
      then none
      else
        some (createMeshFromVerticesIndexed
          (extractNode scene.meshes scale scene.rootNode mat4Id ([], [])).1
          (extractNode scene.meshes scale scene.rootNode mat4Id ([], [])).2)

mutual

/-- Traversal over a scene whose mesh array is empty collects
nothing. -/
theorem extractNode_no_meshes (scale : Point) :
    ∀ (n : SceneNode) (t : Mat4) (acc : List Point × List ℕ),
      extractNode [] scale n t acc = acc
  | SceneNode.mk tr mi cs, t, acc => by
    have h1 : mi.filterMap (fun j => ([] : List SceneMesh)[j]?) = [] := by
      simp
    rw [extractNode, h1, List.foldl_nil]
    exact extractNodes_no_meshes scale cs (mat4Mul t tr) acc

/-- Child recursion over a scene whose mesh array is empty collects
nothing. -/
theorem extractNodes_no_meshes (scale : Point) :
    ∀ (l : List SceneNode) (t : Mat4) (acc : List Point × List ℕ),
      extractNodes [] scale l t acc = acc
  | [], _, _ => rfl
  | c :: cs, t, acc => by
    rw [extractNodes, extractNode_no_meshes scale c t acc]
    exact extractNodes_no_meshes scale cs t acc

end

/-- Claim C7: scene-based construction returns the explicit absence
value when the collected vertex list is empty, or when vertices exist
but the triangle list is empty; only when both are non-empty is the
flat pair handed — unwelded and verbatim — to the pre-indexed build
path. -/
theorem claim_C7 (scene : Scene) (scale : Point) :
    createMeshFromAsset scene scale =
      (if (extractNode scene.meshes scale scene.rootNode mat4Id
          ([], [])).1 = [] then none
       else if (extractNode scene.meshes scale scene.rootNode mat4Id
          ([], [])).2 = [] then none
       else
         some (createMeshFromVerticesIndexed
           (extractNode scene.meshes scale scene.rootNode mat4Id ([], [])).1
           (extractNode scene.meshes scale scene.rootNode mat4Id
             ([], [])).2)) := by
  by_cases hms : scene.meshes = []
  · have hex : extractNode scene.meshes scale scene.rootNode mat4Id
        ([], []) = ([], []) := by
      rw [hms]
      exact extractNode_no_meshes scale _ _ _
    rw [createMeshFromAsset, hex, if_pos (by simp [hms])]
    simp
  · rw [createMeshFromAsset, if_neg (by simp [hms])]
    rcases hv : (extractNode scene.meshes scale scene.rootNode mat4Id
        ([], [])).1 with _ | ⟨p, ps⟩
    · simp [hv]
    · rcases ht : (extractNode scene.meshes scale scene.rootNode mat4Id
          ([], [])).2 with _ | ⟨i, is⟩
      · simp [hv, ht]
      · simp [hv, ht, createMeshFromVerticesIndexed]

/-- The translation by (2, 0, 0). -/
def exTranslate2 : Mat4 := ⟨1, 0, 0, 2, 0, 1, 0, 0, 0, 0, 1, 0, 0, 0, 0, 1⟩

/-- Claim C3: the cumulative transform at a node is the parent's
cumulative transform composed with the node's local transform (local
applied first), each vertex is transformed by it and then multiplied
component-wise by the scale triple — shown for an arbitrary two-level
hierarchy whose child holds one vertex; in particular the concrete
root(identity, no geometry) / child(translate (2,0,0), vertex (1,0,0))
scene yields a flattened vertex (3, 0, 0) under identity scale. -/
theorem claim_C3 :
    (∀ (tRoot tChild : Mat4) (v scale : Point),
      (extractNode [SceneMesh.mk [v] []] scale
          (SceneNode.mk tRoot [] [SceneNode.mk tChild [0] []]) mat4Id
          ([], [])).1 =
        [compScale scale
          (transformPoint (mat4Mul (mat4Mul mat4Id tRoot) tChild) v)]) ∧
    (3, 0, 0) ∈ (extractNode [SceneMesh.mk [(1, 0, 0)] []] (1, 1, 1)
        (SceneNode.mk mat4Id [] [SceneNode.mk exTranslate2 [0] []]) mat4Id
        ([], [])).1 := by
  constructor
  · intro tRoot tChild v scale
    rfl
  · have h : (extractNode [SceneMesh.mk [(1, 0, 0)] []] (1, 1, 1)
        (SceneNode.mk mat4Id [] [SceneNode.mk exTranslate2 [0] []]) mat4Id
        ([], [])).1 =
      [compScale (1, 1, 1)
        (transformPoint (mat4Mul (mat4Mul mat4Id mat4Id) exTranslate2)
          (1, 0, 0))] := rfl
    have h2 : compScale (1, 1, 1)
        (transformPoint (mat4Mul (mat4Mul mat4Id mat4Id) exTranslate2)
          ((1 : ℚ), (0 : ℚ), (0 : ℚ))) = ((3 : ℚ), (0 : ℚ), (0 : ℚ)) := by
      norm_num [compScale, transformPoint, mat4Mul, mat4Id, exTranslate2,
        Prod.mk.injEq]
    rw [h, h2]
    exact List.mem_singleton.mpr rfl

/-- A raw byte buffer handed to the importer. -/
abbrev Bytes : Type := List ℕ

/-- Modelled from the spec: the external Assimp import collaborator —
takes the buffer and the type hint, returns a scene or an explicit
import-failure signal. -/
abbrev Importer : Type := Bytes → String → Option Scene

/-- Modelled from the spec: the external resource-retrieval
collaborator — takes a URI string, returns raw bytes or a
retrieval-failure signal (a thrown exception in the C++ code). -/
abbrev Retriever : Type := String → Except Unit Bytes

/-- The immutable default scale constant
(`static const Eigen::Vector3d one(1.0, 1.0, 1.0)`,
src/src/mesh_operations.cpp lines 210 and 217). -/
def oneScale : Point := (1, 1, 1)

/-- Embedding of `createMeshFromBinary(buffer, size, scale, hint)`
(src/src/mesh_operations.cpp lines 221-256): an empty buffer is
rejected with a warning; otherwise the external importer parses the
buffer and a produced scene goes to `createMeshFromAsset`. -/
def createMeshFromBinaryScaled (importer : Importer) (buffer : Bytes)
    (scale : Point) (hint : String) : Option RawMesh :=
  if buffer.length < 1 then none
  else
    match importer buffer hint with
    | some scene => createMeshFromAsset scene scale
    | none => none

/-- Embedding of the scale-less overload
`createMeshFromBinary(buffer, size, hint)`
(src/src/mesh_operations.cpp lines 214-219). -/
def createMeshFromBinaryDefault (importer : Importer) (buffer : Bytes)
    (hint : String) : Option RawMesh :=
  createMeshFromBinaryScaled importer buffer oneScale hint

/-- Embedding of `createMeshFromResource(resource, scale)`
(src/src/mesh_operations.cpp lines 258-282): a retrieval fault is
logged and yields no mesh; a zero-byte payload is logged and yields no
mesh; otherwise the bytes go to the binary path with the resource name
as hint. -/
def createMeshFromResourceScaled (retr : Retriever) (importer : Importer)
    (resource : String) (scale : Point) : Option RawMesh :=
  match retr resource with
  | Except.error _ => none
  | Except.ok res =>
    if res.length = 0 then none
    else createMeshFromBinaryScaled importer res scale resource

/-- Embedding of the scale-less overload
`createMeshFromResource(resource)`
(src/src/mesh_operations.cpp lines 208-212). -/
def createMeshFromResourceDefault (retr : Retriever) (importer : Importer)
    (resource : String) : Option RawMesh :=
  createMeshFromResourceScaled retr importer resource oneScale

/-- Claim C8: the default scale is the identity constant (1,1,1): the
scale-less resource and binary entry points agree with their
scaled versions at scale (1,1,1), for every retriever, importer,
resource string, buffer and hint. -/
theorem claim_C8 (retr : Retriever) (importer : Importer)
    (resource : String) (buffer : Bytes) (hint : String) :
    createMeshFromResourceDefault retr importer resource =
      createMeshFromResourceScaled retr importer resource (1, 1, 1) ∧
    createMeshFromBinaryDefault importer buffer hint =
      createMeshFromBinaryScaled importer buffer (1, 1, 1) hint ∧
    oneScale = (1, 1, 1) :=
  ⟨rfl, rfl, rfl⟩

/-- The `Box` shape: three extents. -/
structure Box where
  size : ℚ × ℚ × ℚ

/-- The hardcoded triangle-index table of the box mesh
(src/src/mesh_operations.cpp lines 384-395). -/
def boxTriTable : List ℕ :=
  [0, 1, 2, 2, 3, 0, 4, 3, 2, 2, 6, 4, 7, 6, 2, 2, 1, 7,
   3, 4, 5, 5, 0, 3, 0, 5, 7, 7, 1, 0, 7, 5, 4, 4, 6, 7]

/-- Embedding of `createMeshFromShape(const Box &box)`
(src/src/mesh_operations.cpp lines 344-400): 8 vertices at the
half-extents (±size/2), triangle indices copied from the hardcoded
table, no validation of the extents. -/
def createMeshFromShapeBox (box : Box) : RawMesh :=
  ⟨[(-(box.size.1 / 2), -(box.size.2.1 / 2), -(box.size.2.2 / 2)),
    (box.size.1 / 2, -(box.size.2.1 / 2), -(box.size.2.2 / 2)),
    (box.size.1 / 2, -(box.size.2.1 / 2), box.size.2.2 / 2),
    (-(box.size.1 / 2), -(box.size.2.1 / 2), box.size.2.2 / 2),
    (-(box.size.1 / 2), box.size.2.1 / 2, box.size.2.2 / 2),
    (-(box.size.1 / 2), box.size.2.1 / 2, -(box.size.2.2 / 2)),
    (box.size.1 / 2, box.size.2.1 / 2, box.size.2.2 / 2),
    (box.size.1 / 2, box.size.2.1 / 2, -(box.size.2.2 / 2))],
   boxTriTable⟩

/-- Claim C10: the box generator performs no validation — for every
box, including zero or negative extents, it returns a mesh with
exactly 8 vertices whose coordinates are the half-extents (±size/2),
and 12 triangles taken from the fixed hardcoded table, every index
strictly below 8. -/
theorem claim_C10 (box : Box) :
    (createMeshFromShapeBox box).vertexCount = 8 ∧
    (createMeshFromShapeBox box).triangleCount = 12 ∧
    (∀ p ∈ (createMeshFromShapeBox box).vertices,
      (p.1 = box.size.1 / 2 ∨ p.1 = -(box.size.1 / 2)) ∧
      (p.2.1 = box.size.2.1 / 2 ∨ p.2.1 = -(box.size.2.1 / 2)) ∧
      (p.2.2 = box.size.2.2 / 2 ∨ p.2.2 = -(box.size.2.2 / 2))) ∧
    (createMeshFromShapeBox box).triangles = boxTriTable ∧
    (∀ t ∈ (createMeshFromShapeBox box).triangles, t < 8) := by
  refine ⟨rfl, ?_, ?_, rfl, ?_⟩
  · show boxTriTable.length / 3 = 12
    decide
  · intro p hp
    simp only [createMeshFromShapeBox, List.mem_cons,
      List.not_mem_nil, or_false] at hp
    rcases hp with rfl | rfl | rfl | rfl | rfl | rfl | rfl | rfl
    all_goals simp
  · exact fun t ht => (by decide : ∀ t ∈ boxTriTable, t < 8) t ht

end MeshOps
